import Mathlib

/-!
Verification of the RAG-datachat-Assistant core logic: a shallow embedding
of the document chunker (`src/connectors/document_loader.py`), the RAG
engine retrieval, formatting, query and chat operations
(`src/core/rag_engine.py`), and the usage gate of the chat API route
(`src/api/routes/chat.py`), together with theorems settling the frozen
claims about them.

Python strings are modelled as `List Char` where index arithmetic matters
(the chunker) and as `String` elsewhere.  Python ints are `Int`/`Nat`;
ChromaDB L2 distances (Python floats) are modelled as `ℚ`: the claims in
question concern only order comparisons against the exact constant `2.0`,
which is unaffected by the rational model.  Fallible external calls (the
LLM client) are modelled as `String → Except String String` oracles, and
the `while` loop of the chunker by fuel-indexed recursion (`none` = the
fuel ran out before the loop exited).
-/

namespace RagDatachat

/-- Python whitespace test used by `str.strip` (ASCII fragment: space,
tab, newline, carriage return, vertical tab, form feed). -/
def pySpace (c : Char) : Bool :=
  c = ' ' || c = '\t' || c = '\n' || c = '\r' || c = Char.ofNat 11 || c = Char.ofNat 12

/-- Python `str.strip()`: drop leading and trailing whitespace. -/
def pyStrip (l : List Char) : List Char :=
  ((l.dropWhile pySpace).reverse.dropWhile pySpace).reverse

/-- Python slice-index normalisation: a negative index counts from the
end (clamped at 0), a non-negative one is clamped at the length. -/
def pyIdx (len : Nat) (i : Int) : Nat :=
  if i < 0 then (len + i).toNat else min i.toNat len

/-- Python `text[a:b]` with full slice semantics. -/
def pySlice (l : List Char) (a b : Int) : List Char :=
  (l.take (pyIdx l.length b)).drop (pyIdx l.length a)

/-- Does the 2-character needle `c1 c2` occur in `l` at position `i`? -/
def matchAt2 (l : List Char) (c1 c2 : Char) (i : Nat) : Bool :=
  match l.drop i with
  | x :: y :: _ => x = c1 && y = c2
  | _ => false

/-- Python `text.rfind(needle, a, b)` for a 2-character needle: the largest
position `i` with `a' ≤ i`, `i + 2 ≤ b'` (indices normalised as for a
slice) at which the needle occurs, and `-1` if there is none. -/
def pyRfind2 (l : List Char) (c1 c2 : Char) (a b : Int) : Int :=
  let lo := pyIdx l.length a
  let hi := pyIdx l.length b
  let cands := (List.range l.length).filter
    (fun i => decide (lo ≤ i) && decide (i + 2 ≤ hi) && matchAt2 l c1 c2 i)
  match cands.getLast? with
  | some i => (i : Int)
  | none => -1

/-- Embedding of `max(text.rfind(". ", start, end), text.rfind("? ", start, end),
text.rfind("! ", start, end))` from `chunk_text`. -/
def sentenceEnd (text : List Char) (start end0 : Int) : Int :=
  max (max (pyRfind2 text '.' ' ' start end0)
      (pyRfind2 text '?' ' ' start end0))
    (pyRfind2 text '!' ' ' start end0)

/-- The right edge of the current window: `start + chunk_size`, pulled
back to just after the rightmost sentence terminator when the edge falls
strictly inside the text and a terminator is found. -/
def chunkEnd (cs : Nat) (text : List Char) (start : Int) : Int :=
  let end0 : Int := start + (cs : Int)
  if end0 < (text.length : Int) then
    let se := sentenceEnd text start end0
    if se ≠ -1 then se + 1 else end0
  else end0

/-- The `if chunk: chunks.append(chunk)` guard of `chunk_text`. -/
def appendChunk (acc : List (List Char)) (chunk : List Char) :
    List (List Char) :=
  if chunk = [] then acc else acc ++ [chunk]

/-- One-for-one embedding of the `while start < text_length` loop of
`DocumentChunker.chunk_text`, indexed by fuel; `none` means the fuel ran
out with the loop still running.  `start` is an `Int` because Python
computes `start = end - chunk_overlap`, which can go negative. -/
def chunkLoop (cs co : Nat) (text : List Char) :
    Nat → Int → List (List Char) → Option (List (List Char))
  | 0, _, _ => none
  | fuel + 1, start, acc =>
    if start < (text.length : Int) then
      let endF : Int := chunkEnd cs text start
      let chunk := pyStrip (pySlice text start endF)
      let acc2 := appendChunk acc chunk
      let start2 : Int :=
        if endF < (text.length : Int) then endF - (co : Int) else (text.length : Int)
      chunkLoop cs co text fuel start2 acc2
    else some acc

/-- Embedding of `DocumentChunker.chunk_text`: empty input short-circuits to `[]`,
otherwise the loop runs from `start = 0` with an empty accumulator. -/
def chunkText (cs co : Nat) (fuel : Nat) (text : List Char) :
    Option (List (List Char)) :=
  if text = [] then some [] else chunkLoop cs co text fuel 0 []

/-- On the text `"a. bbbbbbbbbb"` with `chunk_size = 5`, `chunk_overlap = 2`,
one loop iteration finds the sentence terminator at index 1, sets
`end = 2`, emits the chunk `"a."`, and moves `start` to `2 - 2 = 0`:
the loop state does not advance. -/
lemma chunkLoop_step_stuck (f : Nat) (acc : List (List Char)) :
    chunkLoop 5 2 ("a. bbbbbbbbbb".toList) (f + 1) 0 acc
      = chunkLoop 5 2 ("a. bbbbbbbbbb".toList) f 0 (acc ++ [['a', '.']]) := rfl

lemma chunkLoop_stuck (fuel : Nat) :
    ∀ acc, chunkLoop 5 2 ("a. bbbbbbbbbb".toList) fuel 0 acc = none := by
  induction fuel with
  | zero => intro acc; rfl
  | succ f ih =>
    intro acc
    rw [chunkLoop_step_stuck]
    exact ih _

/-- Appending through the `if chunk:` guard preserves the invariant
that no accumulated chunk is empty. -/
lemma appendChunk_no_empty (acc : List (List Char)) (chunk : List Char)
    (hacc : ∀ c ∈ acc, c ≠ []) : ∀ c ∈ appendChunk acc chunk, c ≠ [] := by
  intro c hc
  unfold appendChunk at hc
  split at hc
  · exact hacc c hc
  · rename_i hch
    rcases List.mem_append.mp hc with h1 | h1
    · exact hacc c h1
    · rcases List.mem_singleton.mp h1 with rfl
      exact hch

/-- The chunk-nonemptiness invariant of the loop: only chunks that
survive the `if chunk:` test are appended to the accumulator. -/
lemma chunkLoop_no_empty (cs co : Nat) (text : List Char) :
    ∀ (fuel : Nat) (start : Int) (acc res : List (List Char)),
      chunkLoop cs co text fuel start acc = some res →
      (∀ c ∈ acc, c ≠ []) → ∀ c ∈ res, c ≠ [] := by
  intro fuel
  induction fuel with
  | zero => intro start acc res h; simp [chunkLoop] at h
  | succ f ih =>
    intro start acc res h hacc
    by_cases hs : start < (text.length : Int)
    · simp only [chunkLoop, if_pos hs] at h
      exact ih _ _ _ h (appendChunk_no_empty _ _ hacc)
    · simp only [chunkLoop, if_neg hs, Option.some.injEq] at h
      subst h
      exact hacc

/-- A text shorter than `chunk_size` takes the no-sentence-split branch:
the first window is the whole text, and the loop halts after one pass. -/
lemma chunkText_short (text : List Char) (cs co fuel : Nat)
    (h0 : 0 < text.length) (h1 : text.length < cs)
    (h2 : pyStrip text ≠ []) (hf : 2 ≤ fuel) :
    chunkText cs co fuel text = some [pyStrip text] := by
  obtain ⟨k, rfl⟩ : ∃ k, fuel = k + 2 := ⟨fuel - 2, by omega⟩
  have htext : text ≠ [] := by
    intro h
    rw [h] at h0
    simp at h0
  rw [chunkText, if_neg htext]
  have hstart : (0 : Int) < (text.length : Int) := by exact_mod_cast h0
  have hend : ¬ ((0 : Int) + (cs : Int) < (text.length : Int)) := by
    omega
  have hslice : pySlice text 0 ((0 : Int) + (cs : Int)) = text := by
    unfold pySlice pyIdx
    have hc : ((0 : Int) + (cs : Int)) = (cs : Int) := by ring
    rw [hc]
    have hn : ¬ ((cs : Int) < 0) := by omega
    have h0n : ¬ ((0 : Int) < 0) := by omega
    rw [if_neg hn, if_neg h0n]
    have ht : (Int.toNat (cs : Int)) = cs := Int.toNat_natCast cs
    rw [ht]
    have hm : min cs text.length = text.length := min_eq_right (le_of_lt h1)
    rw [hm]
    simp
  have hendF : chunkEnd cs text 0 = (0 : Int) + (cs : Int) := by
    simp only [chunkEnd]
    rw [if_neg hend]
  have happ : appendChunk [] (pyStrip text) = [pyStrip text] := by
    unfold appendChunk
    rw [if_neg h2]
    simp
  simp only [chunkLoop, if_pos hstart, hendF, hslice, happ, if_neg hend]
  simp [chunkLoop]

/-- C1: the claim that `DocumentChunker.chunk_text` terminates for every
text and every `0 ≤ chunk_overlap < chunk_size` is FALSE of the code.  On
the text `"a. bbbbbbbbbb"` with `chunk_size = 5` and `chunk_overlap = 2`
(a valid pair, `2 < 5`), the sentence-boundary adjustment pulls the window
edge back to index 2, and `start = end - chunk_overlap` returns to 0: the
loop repeats the same state forever, so the fuel-indexed embedding returns
`none` for every amount of fuel, and the coverage and length properties
are vacuous because no chunk list is ever returned. -/
theorem chunk_text_loops_forever :
    2 < 5 ∧ ∀ fuel, chunkText 5 2 fuel ("a. bbbbbbbbbb".toList) = none := by
  refine ⟨by omega, fun fuel => ?_⟩
  rw [chunkText, if_neg (by decide)]
  exact chunkLoop_stuck fuel []

/-- C2 (amended): a non-empty text shorter than `chunk_size` that is not
all whitespace yields exactly one chunk, the stripped text; and for every
input no chunk in the output is the empty string.  (The original claim is
false for all-whitespace texts: the single window strips to the empty
string, which the `if chunk:` guard discards, so the output is empty.) -/
theorem chunk_text_short_and_no_empty :
    (∀ (text : List Char) (cs co fuel : Nat),
        0 < text.length → text.length < cs → pyStrip text ≠ [] → 2 ≤ fuel →
          chunkText cs co fuel text = some [pyStrip text])
    ∧ (∀ (cs co fuel : Nat) (text : List Char) (res : List (List Char)),
        chunkText cs co fuel text = some res → ∀ c ∈ res, c ≠ []) := by
  constructor
  · exact fun text cs co fuel h0 h1 h2 hf => chunkText_short text cs co fuel h0 h1 h2 hf
  · intro cs co fuel text res h c hc
    rw [chunkText] at h
    split at h
    · rcases Option.some.inj h with rfl
      simp at hc
    · exact chunkLoop_no_empty cs co text fuel 0 [] res h (by simp) c hc

/-- Witness for C2: the two-character text `"ab"` with `chunk_size = 5`,
`chunk_overlap = 0` produces exactly the single chunk `"ab"`. -/
theorem chunk_text_short_witness :
    chunkText 5 0 2 (['a', 'b']) = some [['a', 'b']] :=
  chunk_text_short_and_no_empty.1 ['a', 'b'] 5 0 2 (by decide) (by decide)
    (by decide) (by decide)

/-- Counterexample for C2 as stated: the text `"   "` (three spaces) is
non-empty and shorter than `chunk_size = 5`, but `chunk_text` returns the
empty chunk list, not one chunk. -/
theorem chunk_text_whitespace_counterexample :
    ([' ', ' ', ' '] : List Char) ≠ []
      ∧ ([' ', ' ', ' '] : List Char).length < 5
      ∧ chunkText 5 2 6 ([' ', ' ', ' ']) = some [] := by
  refine ⟨by decide, by decide, ?_⟩
  rfl

/-! ## RAG engine (`src/core/rag_engine.py`) -/

/-- Python `str.strip()` on the `String` model. -/
def pyStripS (s : String) : String :=
  String.mk (pyStrip s.data)

/-- One search candidate, the `i`-th row of the parallel lists
`ids` / `documents` / `distances` / `metadatas` returned by
`VectorStore.search`.  Only the `"source"` metadata key is ever read
(`metadata.get("source", "unknown")`), so the metadata dict is modelled
by that optional key.  The ChromaDB L2 distance is modelled as `ℚ`. -/
structure Candidate where
  cid : String
  doc : String
  distance : ℚ
  source : Option String

/-- The filtering loop of `RAGEngine.retrieve_context`: walk the search
results in order and keep those with `distance <= 2.0` (a hardcoded
constant in the code). -/
def retrieveFiltered : List Candidate → List Candidate
  | [] => []
  | c :: rest =>
    if c.distance ≤ 2 then c :: retrieveFiltered rest else retrieveFiltered rest

/-- The constructor-configured fields of `RAGEngine` relevant to
retrieval (`top_k`, `similarity_threshold`). -/
structure RAGEngineCfg where
  topK : Nat
  similarityThreshold : ℚ

/-- Embedding of `RAGEngine.retrieve_context` applied to the search results for a
query: the code filters against the literal `2.0`, reading no field of
the engine. -/
def retrieveContext (_e : RAGEngineCfg) (searchResults : List Candidate) :
    List Candidate :=
  retrieveFiltered searchResults

/-- Embedding of `metadata.get("source", "unknown")`. -/
def sourceName (c : Candidate) : String :=
  c.source.getD "unknown"

/-- One block of `RAGEngine.format_context`:
`f"[Document {i+1} - Source: {source}]\n{doc}\n"` (here `i` is already
the 1-based number). -/
def contextBlock (i : Nat) (c : Candidate) : String :=
  "[Document " ++ toString i ++ " - Source: " ++ sourceName c ++ "]\n"
    ++ c.doc ++ "\n"

/-- Embedding of `RAGEngine.format_context`: the fixed sentinel on an empty result,
otherwise the enumerated blocks joined with `"\n"`. -/
def formatContext (docs : List Candidate) : String :=
  if docs.isEmpty then "No relevant context found."
  else String.intercalate "\n"
    (docs.enum.map (fun p => contextBlock (p.1 + 1) p.2))

/-- Modelled from the spec sentence for C4: render each surviving
candidate as a numbered block in original rank order, numbering from 1,
joined by newlines (each block carries its own trailing newline, so
consecutive blocks are separated by a blank line). -/
def specBlocks : Nat → List Candidate → List String
  | _, [] => []
  | i, c :: rest => contextBlock i c :: specBlocks (i + 1) rest

/-- The spec-side rendering of a non-empty retrieval result. -/
def formatContextSpec (docs : List Candidate) : String :=
  String.intercalate "\n" (specBlocks 1 docs)

/-- Embedding of `RAG_QA_TEMPLATE.format(context=..., question=...)` from
`src/llm/prompt_templates.py`. -/
def ragQaTemplate (context question : String) : String :=
  "Context information is below:\n---------------------\n" ++ context
    ++ "\n---------------------\n\nGiven the context information above, please answer the following question.\nIf the context doesn\x27t contain enough information to answer, say so clearly.\n\nQuestion: "
    ++ question ++ "\n\nAnswer:"

/-- Embedding of `CONVERSATION_TEMPLATE.format(history=..., context=..., question=...)`. -/
def conversationTemplate (history context question : String) : String :=
  "Previous conversation:\n" ++ history ++ "\n\nRetrieved context:\n"
    ++ context ++ "\n\nUser: " ++ question

/-- One conversation turn, `{"user": ..., "assistant": ...}`. -/
structure Turn where
  user : String
  assistant : String

/-- Embedding of `f"User: ...\nAssistant: ..."` over a turn. -/
def renderTurn (t : Turn) : String :=
  "User: " ++ t.user ++ "\nAssistant: " ++ t.assistant

/-- Python `history[-3:]`: the last three turns (the whole list when it
is shorter). -/
def lastThree (l : List Turn) : List Turn :=
  l.drop (l.length - 3)

/-- Embedding of `"\n".join(...)` over the rendered recent turns. -/
def historyText (h : List Turn) : String :=
  String.intercalate "\n" (h.map renderTurn)

/-- The prompt construction of `RAGEngine.chat`: the conversation
template over the last three turns when `use_history` is set and the
history is non-empty, the plain QA template otherwise. -/
def buildChatPrompt (useHistory : Bool) (hist : List Turn)
    (context question : String) : String :=
  if useHistory && !hist.isEmpty then
    conversationTemplate (historyText (lastThree hist)) context question
  else
    ragQaTemplate context question

/-- Embedding of `RAGEngine.generate_answer`: the generation call is wrapped in
`try/except`; an exception becomes the string
`f"Error generating answer: {str(e)}"`, a success is stripped.  The LLM
client is modelled as a prompt-indexed oracle
`gen : String → Except String String`. -/
def generateAnswer (gen : String → Except String String)
    (question context : String) : String :=
  match gen (ragQaTemplate context question) with
  | Except.ok a => pyStripS a
  | Except.error e => "Error generating answer: " ++ e

/-- The response dictionary built by `RAGEngine.query`. -/
structure QueryResponse where
  question : String
  answer : String
  numSources : Nat

/-- Embedding of `RAGEngine.query`: retrieve, format, generate (errors are absorbed
into the answer string by `generate_answer`), and assemble the response.
The function is total: no exception escapes. -/
def query (gen : String → Except String String)
    (searchResults : List Candidate) (question : String) : QueryResponse :=
  let retrieved := retrieveFiltered searchResults
  let context := formatContext retrieved
  { question := question
    answer := generateAnswer gen question context
    numSources := retrieved.length }

/-- Embedding of `RAGEngine.chat`: retrieve, format, build the (possibly
history-folding) prompt, call the LLM *without* a `try/except`, then
append the raw answer to the conversation history and return the
stripped answer.  The pair returned is (outcome, conversation history
after the call): when the generation call raises, the exception
propagates (`Except.error`) and the history mutation on the engine never
executes, so the input history is returned unchanged. -/
def chatStep (gen : String → Except String String)
    (searchResults : List Candidate) (hist : List Turn)
    (question : String) (useHistory : Bool) :
    Except String String × List Turn :=
  let filtered := retrieveFiltered searchResults
  let context := formatContext filtered
  let prompt := buildChatPrompt useHistory hist context question
  match gen prompt with
  | Except.error e => (Except.error e, hist)
  | Except.ok answer =>
      (Except.ok (pyStripS answer), hist ++ [⟨question, answer⟩])

/-! ## Usage gate (`src/api/routes/chat.py`) -/

/-- Embedding of `TIER_LIMITS.get(tier, 10)`: the dict literal
`{"free": 10, "pro": 1000, "enterprise": -1}` with default 10. -/
def tierLimit (tier : String) : Int :=
  if tier = "free" then 10
  else if tier = "pro" then 1000
  else if tier = "enterprise" then -1
  else 10

/-- The gate in the `chat` route: a 429 is raised exactly when
`limit > 0` and `usage_count >= limit`, where `usage_count` is the
identity's recorded same-action count over the trailing day.  Returns
`true` when the request is allowed through. -/
def gateAllows (tier : String) (usageCount : Nat) : Bool :=
  let limit := tierLimit tier
  if 0 < limit then
    if limit ≤ (usageCount : Int) then false else true
  else true

/-! ## Helper lemmas for the engine -/

lemma retrieveFiltered_eq_filter (l : List Candidate) :
    retrieveFiltered l = l.filter (fun c => decide (c.distance ≤ 2)) := by
  induction l with
  | nil => rfl
  | cons c rest ih =>
    by_cases h : c.distance ≤ 2
    · simp [retrieveFiltered, List.filter, h, ih]
    · simp [retrieveFiltered, List.filter, h, ih]

lemma enumFrom_map_contextBlock (n : Nat) (l : List Candidate) :
    (List.enumFrom n l).map (fun p => contextBlock (p.1 + 1) p.2)
      = specBlocks (n + 1) l := by
  induction l generalizing n with
  | nil => rfl
  | cons c rest ih =>
    simp only [List.enumFrom, List.map, specBlocks]
    rw [ih]

/-- Two sample candidates, one inside and one outside the distance
threshold, used by the concrete witnesses. -/
def candNear : Candidate :=
  ⟨"id1", "alpha text", 1, some "a.txt"⟩

/-- A candidate with L2 distance 3, beyond the hardcoded 2.0 cutoff. -/
def candFar : Candidate :=
  ⟨"id2", "beta text", 3, none⟩

/-! ## Claim theorems for the engine and the gate -/

/-- C3: on every candidate list returned by search,
`RAGEngine.retrieve_context` keeps exactly the candidates with
`distance <= 2.0`, in order (an order-preserving subsequence); no kept
candidate exceeds 2.0, and when the search returned at most the requested
top-k candidates the filtered result also has at most top-k. -/
theorem retrieve_context_keeps_close_candidates
    (cands : List Candidate) (k : Nat) (hk : cands.length ≤ k) :
    retrieveFiltered cands = cands.filter (fun c => decide (c.distance ≤ 2))
    ∧ (retrieveFiltered cands).Sublist cands
    ∧ (∀ c ∈ retrieveFiltered cands, c.distance ≤ 2)
    ∧ (retrieveFiltered cands).length ≤ k := by
  have he := retrieveFiltered_eq_filter cands
  refine ⟨he, ?_, ?_, ?_⟩
  · rw [he]
    exact List.filter_sublist cands
  · intro c hc
    rw [he] at hc
    have := (List.mem_filter.mp hc).2
    simpa using this
  · rw [he]
    exact le_trans (List.length_filter_le _ cands) hk

/-- Witness for C3: of two candidates at distances 1 and 3, only the
first survives, and the result length stays within the requested 2. -/
theorem retrieve_context_keeps_close_candidates_witness :
    retrieveFiltered [candNear, candFar]
        = [candNear, candFar].filter (fun c => decide (c.distance ≤ 2))
      ∧ (retrieveFiltered [candNear, candFar]).Sublist [candNear, candFar]
      ∧ (∀ c ∈ retrieveFiltered [candNear, candFar], c.distance ≤ 2)
      ∧ (retrieveFiltered [candNear, candFar]).length ≤ 2 :=
  retrieve_context_keeps_close_candidates [candNear, candFar] 2 (by decide)

/-- C4: on an empty retrieval result `format_context` returns exactly the
fixed sentinel `"No relevant context found."`, which is not the empty
string; on a non-empty result it returns the spec-side rendering: the
candidates as numbered source-attributed blocks in original rank order. -/
theorem format_context_sentinel_and_blocks :
    formatContext [] = "No relevant context found."
    ∧ ("No relevant context found." : String) ≠ ""
    ∧ ∀ docs : List Candidate, docs ≠ [] →
        formatContext docs = formatContextSpec docs := by
  refine ⟨rfl, by decide, ?_⟩
  intro docs hne
  have hne2 : docs.isEmpty = false := by
    rcases docs with _ | ⟨c, rest⟩
    · exact absurd rfl hne
    · rfl
  rw [formatContext, hne2]
  simp only [Bool.false_eq_true, if_false]
  rw [formatContextSpec, List.enum, enumFrom_map_contextBlock]

/-- Witness for C4: a singleton retrieval result renders as its one
numbered block. -/
theorem format_context_sentinel_and_blocks_witness :
    ([candNear] : List Candidate) ≠ []
      ∧ formatContext [candNear] = formatContextSpec [candNear] :=
  ⟨List.cons_ne_nil _ _,
    format_context_sentinel_and_blocks.2.2 [candNear] (List.cons_ne_nil _ _)⟩

lemma tierLimit_ne_zero (t : String) : tierLimit t ≠ 0 := by
  unfold tierLimit
  split_ifs <;> decide

/-- C5: the gate allows a request iff the tier limit is negative or the
identity's same-action count in the trailing day is strictly below the
limit; concretely, tier `"free"` (limit 10) with 10 prior records is
denied, and tier `"enterprise"` is always allowed.  (The code tests
`limit > 0`, not `limit < 0`; the two agree because no tier, known or
unknown, maps to a limit of 0.) -/
theorem usage_gate_allows_iff :
    (∀ (tier : String) (count : Nat),
        gateAllows tier count = true
          ↔ (tierLimit tier < 0 ∨ (count : Int) < tierLimit tier))
    ∧ gateAllows "free" 10 = false
    ∧ ∀ n : Nat, gateAllows "enterprise" n = true := by
  refine ⟨?_, rfl, fun n => rfl⟩
  intro tier count
  have hz := tierLimit_ne_zero tier
  simp only [gateAllows]
  split_ifs with h1 h2
  · simp only [Bool.false_eq_true, false_iff]
    omega
  · simp only [true_iff]
    omega
  · simp only [true_iff]
    omega

/-- C9: `retrieve_context` never reads the configured
`similarity_threshold` field: two engines differing only in that field
filter identically, and the filter compares against the literal 2.0. -/
theorem retrieve_context_ignores_threshold :
    ∀ (k : Nat) (t1 t2 : ℚ) (res : List Candidate),
      retrieveContext ⟨k, t1⟩ res = retrieveContext ⟨k, t2⟩ res
      ∧ retrieveContext ⟨k, t1⟩ res
          = res.filter (fun c => decide (c.distance ≤ 2)) :=
  fun _ _ _ res => ⟨rfl, retrieveFiltered_eq_filter res⟩

/-- C6 as stated is FALSE: `RAGEngine.chat` appends the turn to the
conversation history unconditionally on success; with `use_history =
False` and an initially empty history, the call still appends. -/
theorem chat_appends_without_history_counterexample :
    (chatStep (fun _ => Except.ok "ans") [] [] "q" false).2
        = [(⟨"q", "ans"⟩ : Turn)]
      ∧ ([(⟨"q", "ans"⟩ : Turn)] : List Turn) ≠ [] :=
  ⟨rfl, List.cons_ne_nil _ _⟩

/-- C6 (amended): on every successful generation the turn is appended to
the conversation history regardless of `use_history`; the flag controls
only whether the history is folded into the prompt. -/
theorem chat_always_appends (gen : String → Except String String)
    (res : List Candidate) (hist : List Turn) (q : String) (u : Bool)
    (a : String)
    (h : gen (buildChatPrompt u hist (formatContext (retrieveFiltered res)) q)
        = Except.ok a) :
    (chatStep gen res hist q u).2 = hist ++ [⟨q, a⟩] := by
  simp only [chatStep]
  rw [h]

/-- Witness for amended C6: with `use_history = False` the turn is still
appended. -/
theorem chat_always_appends_witness :
    (chatStep (fun _ => Except.ok "hello") [] [] "hi" false).2
      = [] ++ [(⟨"hi", "hello"⟩ : Turn)] :=
  chat_always_appends (fun _ => Except.ok "hello") [] [] "hi" false "hello" rfl

/-- C7: when the generation call fails, `RAGEngine.query` does not
propagate the failure (it is a total function of the oracle outcome): the
answer field is the string `"Error generating answer: "` followed by the
error message. -/
theorem query_absorbs_generation_error (gen : String → Except String String)
    (res : List Candidate) (q e : String)
    (h : gen (ragQaTemplate (formatContext (retrieveFiltered res)) q)
        = Except.error e) :
    (query gen res q).answer = "Error generating answer: " ++ e := by
  simp only [query, generateAnswer]
  rw [h]

/-- Witness for C7: a generation oracle that always fails with
`"timeout"` yields the embedded error answer. -/
theorem query_absorbs_generation_error_witness :
    (query (fun _ => Except.error "timeout") [] "what?").answer
      = "Error generating answer: " ++ "timeout" :=
  query_absorbs_generation_error (fun _ => Except.error "timeout") [] "what?"
    "timeout" rfl

/-- C8: with `use_history = True` and at least three recorded turns, the
chat prompt folds exactly the last three turns, in chronological order,
each rendered as a `User:` line followed by an `Assistant:` line;
prepending any older turns leaves the prompt unchanged. -/
theorem chat_prompt_folds_last_three (old recent : List Turn)
    (c q : String) (hlen : recent.length = 3) :
    buildChatPrompt true (old ++ recent) c q
      = conversationTemplate
          (String.intercalate "\n" (recent.map renderTurn)) c q := by
  obtain ⟨t, ts, rfl⟩ : ∃ t ts, recent = t :: ts := by
    rcases recent with _ | ⟨t, ts⟩
    · simp at hlen
    · exact ⟨t, ts, rfl⟩
  have hne : (old ++ t :: ts).isEmpty = false := by
    rcases old with _ | ⟨x, xs⟩ <;> rfl
  have hlast : lastThree (old ++ t :: ts) = t :: ts := by
    unfold lastThree
    rw [List.length_append, hlen]
    have h3 : old.length + 3 - 3 = old.length := by omega
    rw [h3, List.drop_left]
  rw [buildChatPrompt, hne]
  simp only [Bool.not_false, Bool.and_true, if_true]
  rw [hlast]
  rfl

/-- Witness for C8: a four-turn history folds exactly its last three
turns. -/
theorem chat_prompt_folds_last_three_witness :
    buildChatPrompt true
        ([⟨"u0", "a0"⟩] ++ [⟨"u1", "a1"⟩, ⟨"u2", "a2"⟩, ⟨"u3", "a3"⟩])
        "ctx" "q4"
      = conversationTemplate
          (String.intercalate "\n"
            (([⟨"u1", "a1"⟩, ⟨"u2", "a2"⟩, ⟨"u3", "a3"⟩] : List Turn).map
              renderTurn))
          "ctx" "q4" :=
  chat_prompt_folds_last_three [⟨"u0", "a0"⟩]
    [⟨"u1", "a1"⟩, ⟨"u2", "a2"⟩, ⟨"u3", "a3"⟩] "ctx" "q4" rfl

/-- C10: when the generation call raises inside `RAGEngine.chat` (which,
unlike `query`, has no `try/except`), the error propagates as-is and the
conversation history is left unchanged: the append happens only after a
successful generation. -/
theorem chat_error_propagates_history_unchanged
    (gen : String → Except String String) (res : List Candidate)
    (hist : List Turn) (q : String) (u : Bool) (e : String)
    (h : gen (buildChatPrompt u hist (formatContext (retrieveFiltered res)) q)
        = Except.error e) :
    chatStep gen res hist q u = (Except.error e, hist) := by
  simp only [chatStep]
  rw [h]

/-- Witness for C10: a failing oracle leaves a one-turn history exactly
as it was and surfaces the error. -/
theorem chat_error_propagates_history_unchanged_witness :
    chatStep (fun _ => Except.error "boom") [] [(⟨"u1", "a1"⟩ : Turn)] "q2" true
      = (Except.error "boom", [(⟨"u1", "a1"⟩ : Turn)]) :=
  chat_error_propagates_history_unchanged (fun _ => Except.error "boom") []
    [⟨"u1", "a1"⟩] "q2" true "boom" rfl

end RagDatachat
